import Mathlib

set_option maxRecDepth 10000

/-!
Verification of the asuka embedding-augmented storage engine
(`asuka-core/src/stores/sqlite.rs` and `asuka-core/src/knowledge/store.rs`).

The development shallowly embeds the store operations as pure Lean functions.
Databases are explicit values (lists of rows plus an AUTOINCREMENT counter),
SQL statements become list manipulations with the same conflict/constraint
behaviour SQLite gives them, and fallible paths return `Except`.  A dedicated
error constructor `panicked` marks paths where the Rust code calls `.unwrap()`
on an `Err` value, i.e. crashes rather than returning a recoverable error.

Floating point: embeddings travel as Rust `f64` and are narrowed to `f32` by
`SqliteStore::serialize_embedding` (`*x as f32`).  Every finite `f64` is an
exact rational, so the narrowing is modelled as IEEE-754 round-to-nearest,
ties-to-even on `ℚ`, with overflow to an infinity, computed over the integer
numerator/denominator of the input (so that the kernel can evaluate it).
-/

deriving instance DecidableEq for Except

namespace Asuka

/-! ## Vector codec (`serialize_embedding`, blob read-back) -/

/-- A stored `f32` cell: either a finite value `(-1)^sign * mantissa * 2^exp`
or an infinity.  (`NaN` cannot arise from narrowing a rational value, and the
source never produces one.) -/
inductive F32 where
  | finite (sign : Bool) (mantissa : ℕ) (exp : ℤ)
  | posInf
  | negInf
deriving DecidableEq, Repr

/-- Round-half-to-even of the fraction `p / q` (for `q ≠ 0`): the integer
nearest to `p / q`, ties going to the even integer.  This is the rounding used
by IEEE-754 round-to-nearest when Rust narrows `f64` to `f32`. -/
def rheNat (p q : ℕ) : ℕ :=
  if 2 * (p % q) < q then p / q
  else if q < 2 * (p % q) then p / q + 1
  else if (p / q) % 2 = 0 then p / q else p / q + 1

/-- Decide `2 ^ e ≤ n / d` using only integer arithmetic (`d ≠ 0`). -/
def pow2LeRat (e : ℤ) (n d : ℕ) : Bool :=
  if 0 ≤ e then decide (2 ^ e.toNat * d ≤ n) else decide (d ≤ 2 ^ (-e).toNat * n)

/-- The descending list `[e, e - 1, ..., e - k + 1]`. -/
def descList : ℤ → ℕ → List ℤ
  | _, 0 => []
  | e, k + 1 => e :: descList (e - 1) k

/-- Exponent candidates of a (possibly subnormal) `f32`: `[127, ..., -126]`. -/
def f32ExpCandidates : List ℤ := descList 127 254

/-- First exponent `e` in the candidate list with `2 ^ e ≤ n / d`; falls back
to the subnormal exponent `-126` when the value is below `2 ^ (-126)`. -/
def findExp (n d : ℕ) : List ℤ → ℤ
  | [] => -126
  | e :: rest => if pow2LeRat e n d then e else findExp n d rest

/-- Exponent of `|x|` on the `f32` grid, clamped to the subnormal floor:
the largest `e ∈ [-126, 127]` with `2 ^ e ≤ |x|`, or `-126` below that. -/
def f32Exp (x : ℚ) : ℤ := findExp x.num.natAbs x.den f32ExpCandidates

/-- The `f32` mantissa of `|x|`: `|x| / 2 ^ (f32Exp x - 23)` rounded to the
nearest integer, ties to even, computed on numerator/denominator. -/
def f32Mantissa (x : ℚ) : ℕ :=
  if 23 ≤ f32Exp x then rheNat x.num.natAbs (x.den * 2 ^ (f32Exp x - 23).toNat)
  else rheNat (x.num.natAbs * 2 ^ (23 - f32Exp x).toNat) x.den

/-- IEEE-754 binary32 round-to-nearest, ties-to-even, of an exact rational:
the semantics of Rust `x as f32` on a finite `f64` with value `x`.  The
result is `(-1)^sign * f32Mantissa x * 2 ^ (f32Exp x - 23)`; a rounded
magnitude of at least `2 ^ 128` (mantissa `≥ 2 ^ (151 - e)`) overflows to an
infinity. -/
def toF32 (x : ℚ) : F32 :=
  if x = 0 then .finite false 0 0
  else if 2 ^ (151 - f32Exp x).toNat ≤ f32Mantissa x then
    (if x.num < 0 then .negInf else .posInf)
  else .finite (x.num < 0) (f32Mantissa x) (f32Exp x - 23)

/-- Model of `SqliteStore::serialize_embedding`: narrow each `f64` component
to `f32` (`embedding.vec.iter().map(|x| *x as f32).collect()`). -/
def serialize_embedding (v : List ℚ) : List F32 := v.map toF32

/-- Widening an `f32` back to `f64` (the `as f64` in
`get_document_embeddings`): exact on finite values; an infinity widens to an
infinite `f64`, which is not a rational, marked `none`. -/
def f32ToF64 : F32 → Option ℚ
  | .finite s m e => some ((if s then -1 else 1) * (m : ℚ) * (2 : ℚ) ^ e)
  | .posInf => none
  | .negInf => none

/-- The value-level read-back of a stored embedding: each 4-byte cell holds
one `f32`, widened to `f64` on read. -/
def decodeEmbeddingCells (l : List F32) : List (Option ℚ) := l.map f32ToF64

/-- Model of `bytes.chunks(4)` followed by `chunk.try_into().unwrap()` in
`get_document_embeddings`: group a byte buffer into 4-byte chunks.  A trailing
chunk shorter than 4 bytes makes `try_into()` return `Err` and the `.unwrap()`
panic, modelled by `none`. -/
def chunks4 {α : Type} : List α → Option (List (α × α × α × α))
  | [] => some []
  | a :: b :: c :: d :: rest => (chunks4 rest).map (fun l => (a, b, c, d) :: l)
  | _ => none

/-- Little-endian word assembly, the pure content of `f32::from_le_bytes`. -/
def f32FromLeBytes (b : ℕ × ℕ × ℕ × ℕ) : ℕ :=
  b.1 + 256 * (b.2.1 + 256 * (b.2.2.1 + 256 * b.2.2.2))

/-- Byte-level decoding of an embedding blob as performed by
`get_document_embeddings`: chunk into 4-byte groups and read each group as a
little-endian `f32` bit pattern.  `none` models the `.unwrap()` panic on a
buffer whose length is not a multiple of 4. -/
def decodeEmbeddingBlob (bytes : List ℕ) : Option (List ℕ) :=
  (chunks4 bytes).map (List.map f32FromLeBytes)

/-! ## Timestamps

SQLite's `CURRENT_TIMESTAMP` writes the TEXT value `YYYY-MM-DD HH:MM:SS`.
The source reads timestamps back through two different parsers:
`chrono::NaiveDateTime::parse_from_str(.., "%Y-%m-%d %H:%M:%S")` (matches the
stored format) and `str::parse::<chrono::DateTime<Utc>>()` (RFC 3339, which
requires a trailing UTC-offset designator the stored format does not have). -/

/-- A parsed calendar timestamp (chrono's `DateTime` field content). -/
structure Ts where
  year : ℕ
  month : ℕ
  day : ℕ
  hour : ℕ
  minute : ℕ
  second : ℕ
deriving DecidableEq, Repr

/-- Numeric value of an ASCII digit, `none` on any other character. -/
def digitVal (c : Char) : Option ℕ :=
  if c.isDigit then some (c.toNat - 48) else none

/-- Parse exactly two ASCII digits. -/
def parse2 : List Char → Option (ℕ × List Char)
  | c1 :: c2 :: rest => do
    let d1 ← digitVal c1
    let d2 ← digitVal c2
    pure (10 * d1 + d2, rest)
  | _ => none

/-- Parse exactly four ASCII digits. -/
def parse4 : List Char → Option (ℕ × List Char)
  | c1 :: c2 :: c3 :: c4 :: rest => do
    let d1 ← digitVal c1
    let d2 ← digitVal c2
    let d3 ← digitVal c3
    let d4 ← digitVal c4
    pure (1000 * d1 + 100 * d2 + 10 * d3 + d4, rest)
  | _ => none

/-- Consume one expected character. -/
def expectChar (c : Char) : List Char → Option (List Char)
  | x :: rest => if x = c then some rest else none
  | [] => none

/-- Field range checks shared by both chrono parsers. -/
def tsFieldsValid (mo d h mi s : ℕ) : Bool :=
  decide (1 ≤ mo) && decide (mo ≤ 12) && decide (1 ≤ d) && decide (d ≤ 31) &&
    decide (h ≤ 23) && decide (mi ≤ 59) && decide (s ≤ 59)

/-- Model of `chrono::NaiveDateTime::parse_from_str(s, "%Y-%m-%d %H:%M:%S")`:
fixed-width zero-padded fields, a space separator, no offset, end of input.
(Calendar fine points such as days-per-month are not modelled; no claim
depends on them.) -/
def parseSqliteTimestamp (s : String) : Option Ts := do
  let (y, r) ← parse4 s.toList
  let r ← expectChar '-' r
  let (mo, r) ← parse2 r
  let r ← expectChar '-' r
  let (d, r) ← parse2 r
  let r ← expectChar ' ' r
  let (h, r) ← parse2 r
  let r ← expectChar ':' r
  let (mi, r) ← parse2 r
  let r ← expectChar ':' r
  let (sec, r) ← parse2 r
  if r = [] ∧ tsFieldsValid mo d h mi sec then pure ⟨y, mo, d, h, mi, sec⟩
  else none

/-- Skip an optional fractional-seconds field `.d+`. -/
def skipFrac : List Char → List Char
  | '.' :: c :: rest => if c.isDigit then (c :: rest).dropWhile Char.isDigit
                        else '.' :: c :: rest
  | l => l

/-- Parse the RFC 3339 offset designator: `Z`/`z` or `±HH:MM`.  chrono's
`FromStr for DateTime<Utc>` REQUIRES this field; its absence is a parse
error. -/
def parseOffset : List Char → Option (List Char)
  | 'Z' :: rest => some rest
  | 'z' :: rest => some rest
  | '+' :: rest => do
    let (_, r) ← parse2 rest
    let r ← expectChar ':' r
    let (_, r) ← parse2 r
    pure r
  | '-' :: rest => do
    let (_, r) ← parse2 rest
    let r ← expectChar ':' r
    let (_, r) ← parse2 r
    pure r
  | _ => none

/-- Model of `s.parse::<chrono::DateTime<chrono::Utc>>()` (the `FromStr`
instance): RFC 3339 with `T`/`t`/space separator, optional fractional
seconds, and a MANDATORY offset designator.  The civil fields are returned
as parsed; conversion of a non-zero offset to UTC is not modelled (no claim
inspects it). -/
def parseRfc3339Utc (s : String) : Option Ts := do
  let (y, r) ← parse4 s.toList
  let r ← expectChar '-' r
  let (mo, r) ← parse2 r
  let r ← expectChar '-' r
  let (d, r) ← parse2 r
  let r ← (match r with
    | c :: rest => if c = 'T' ∨ c = 't' ∨ c = ' ' then some rest else none
    | [] => none)
  let (h, r) ← parse2 r
  let r ← expectChar ':' r
  let (mi, r) ← parse2 r
  let r ← expectChar ':' r
  let (sec, r) ← parse2 r
  let r := skipFrac r
  let r ← parseOffset r
  if r = [] ∧ tsFieldsValid mo d h mi sec then pure ⟨y, mo, d, h, mi, sec⟩
  else none

/-! ## Errors

`panicked` is not a recoverable error value: it marks paths where the Rust
code calls `.unwrap()` on an `Err` and the thread panics. -/

/-- Error outcomes of store operations. -/
inductive SqliteError where
  | constraintViolation
  | prepareError
  | providerError
  | invalidColumnType
  | invalidQuery
  | panicked
deriving DecidableEq, Repr

/-- Failure of the external embedding provider (`EmbeddingsBuilder::build`
returning `Err`). -/
inductive ProviderError where
  | failed
deriving DecidableEq, Repr

/-- Lexicographic "less or equal" on character lists by code point.  UTF-8
byte order coincides with code-point order, so this is SQLite's BINARY
collation on TEXT values. -/
def lexLe : List Char → List Char → Bool
  | [], _ => true
  | _ :: _, [] => false
  | a :: as, b :: bs =>
    if a.toNat < b.toNat then true
    else if b.toNat < a.toNat then false
    else lexLe as bs

/-- SQLite BINARY-collation comparison of two TEXT values. -/
def strLe (a b : String) : Bool := lexLe a.toList b.toList

/-- Neither `SqliteStore::new` nor `KnowledgeBase::new` issues
`PRAGMA foreign_keys = ON`; SQLite leaves foreign-key enforcement OFF by
default, so declared `FOREIGN KEY` clauses are not checked on this
connection. -/
def foreignKeysPragmaEnabled : Bool := false

/-! ## `SqliteStore` (`asuka-core/src/stores/sqlite.rs`)

Schema (from `SqliteStore::new`): `accounts(id INTEGER PRIMARY KEY,
name TEXT NOT NULL UNIQUE, source, created_at, updated_at)`,
`channels(id AUTOINCREMENT, ...)`, `messages(id AUTOINCREMENT, channel_id,
account_id, content, role, reply_to_id, created_at, FOREIGN KEY channel_id /
account_id)`, `documents(id AUTOINCREMENT, doc_id TEXT UNIQUE, document)`,
virtual table `embeddings(rowid, embedding)`. -/

namespace SqliteStore

/-- A stored `accounts` row.  Timestamp columns hold the TEXT that SQLite's
`CURRENT_TIMESTAMP` wrote. -/
structure AccountRow where
  id : ℤ
  name : String
  source : String
  created_at : String
  updated_at : String
deriving DecidableEq, Repr

/-- The `Account` struct the Rust read path materialises (timestamps parsed
to `chrono::DateTime<Utc>`). -/
structure Account where
  id : ℤ
  name : String
  source : String
  created_at : Ts
  updated_at : Ts
deriving DecidableEq, Repr

/-- Model of `SqliteStore::create_user`: `INSERT INTO accounts (id, name,
source, ...) VALUES (?1, ?2, ?3, CURRENT_TIMESTAMP, CURRENT_TIMESTAMP)
ON CONFLICT(name) DO UPDATE SET updated_at = CURRENT_TIMESTAMP RETURNING id`.
The row id is the INTEGER PRIMARY KEY (the rowid), supplied explicitly as
`account_id`.  SQLite checks the rowid key first; a duplicate rowid is a
conflict on a constraint other than the declared target `(name)`, so the
upsert clause does not apply and the statement fails.  A conflict on `name`
alone takes the `DO UPDATE` branch, touching only `updated_at` and returning
the existing row's id.  `now` stands for `CURRENT_TIMESTAMP`. -/
def create_user (db : List AccountRow) (name source : String) (account_id : ℤ)
    (now : String) : Except SqliteError (ℤ × List AccountRow) :=
  if db.any (fun r => r.id == account_id) then .error .constraintViolation
  else
    match db.find? (fun r => r.name == name) with
    | some row =>
      .ok (row.id, db.map (fun r =>
        if r.name == name then { r with updated_at := now } else r))
    | none => .ok (account_id, db ++ [⟨account_id, name, source, now, now⟩])

/-- Model of `SqliteStore::get_user_by_source`: `SELECT id, name, source,
created_at, updated_at FROM accounts WHERE source = ?1` through
`query_row(..).optional()`.  A miss yields `Ok(None)`.  On a hit the row
mapper runs `row.get::<_, String>(3)?.parse().unwrap()`: the `parse` is
chrono's RFC 3339 `FromStr`, and `.unwrap()` panics when it fails. -/
def get_user_by_source (db : List AccountRow) (source : String) :
    Except SqliteError (Option Account) :=
  match db.find? (fun r => r.source == source) with
  | none => .ok none
  | some r =>
    match parseRfc3339Utc r.created_at, parseRfc3339Utc r.updated_at with
    | some c, some u => .ok (some ⟨r.id, r.name, r.source, c, u⟩)
    | _, _ => .error .panicked

/-- A stored `messages` row. -/
structure MessageRow where
  id : ℤ
  channel_id : ℤ
  account_id : ℤ
  role : String
  content : String
  reply_to_id : Option ℤ
  created_at : String
deriving DecidableEq, Repr

/-- The `Message` struct the Rust read path materialises. -/
structure Message where
  id : ℤ
  channel_id : ℤ
  account_id : ℤ
  role : String
  content : String
  reply_to_id : Option ℤ
  created_at : Ts
deriving DecidableEq, Repr

/-- The message-related tables: existing `channels` and `accounts` row ids
(what the `FOREIGN KEY` clauses reference), the `messages` rows, and the next
AUTOINCREMENT id. -/
structure MessagesDb where
  channels : List ℤ
  accounts : List ℤ
  rows : List MessageRow
  nextId : ℤ
deriving DecidableEq, Repr

/-- Model of `SqliteStore::create_message`: a transaction around a plain
`INSERT INTO messages (channel_id, account_id, content, role, reply_to_id)
VALUES (..) RETURNING id` — no `ON CONFLICT` clause.  When `fk` (foreign-key
enforcement, i.e. `PRAGMA foreign_keys`) is on, a `channel_id`/`account_id`
that references no existing row fails the constraint and the transaction
rolls back; with the pragma off SQLite inserts the row regardless. -/
def create_message (fk : Bool) (db : MessagesDb) (channel_id account_id : ℤ)
    (reply_to_id : Option ℤ) (role content : String) (now : String) :
    Except SqliteError (ℤ × MessagesDb) :=
  if fk ∧ (channel_id ∉ db.channels ∨ account_id ∉ db.accounts) then
    .error .constraintViolation
  else
    .ok (db.nextId,
      { db with
        rows := db.rows ++
          [⟨db.nextId, channel_id, account_id, role, content, reply_to_id, now⟩]
        nextId := db.nextId + 1 })

/-- Model of `SqliteStore::get_message`: `SELECT .. FROM messages WHERE
id = ?1`, row mapper parsing `created_at` with `NaiveDateTime::parse_from_str
(.., "%Y-%m-%d %H:%M:%S")`.  A parse failure becomes
`rusqlite::Error::InvalidQuery`, and the trailing `.optional().unwrap()`
panics on that `Err`; a plain miss is `Ok(None)`. -/
def get_message (db : MessagesDb) (id : ℤ) : Except SqliteError (Option Message) :=
  match db.rows.find? (fun r => r.id == id) with
  | none => .ok none
  | some r =>
    match parseSqliteTimestamp r.created_at with
    | some ts =>
      .ok (some ⟨r.id, r.channel_id, r.account_id, r.role, r.content,
        r.reply_to_id, ts⟩)
    | none => .error .panicked

/-- Row mapper loop of `get_recent_messages` (`query_map` then
`collect::<Result<Vec<_>, _>>`): parse each row's `created_at` with the
`%Y-%m-%d %H:%M:%S` format; the first failure aborts the whole read. -/
def rowsToMessages : List MessageRow → Option (List Message)
  | [] => some []
  | r :: rest =>
    match parseSqliteTimestamp r.created_at, rowsToMessages rest with
    | some ts, some ms =>
      some (⟨r.id, r.channel_id, r.account_id, r.role, r.content,
        r.reply_to_id, ts⟩ :: ms)
    | _, _ => none

/-- The comparison `ORDER BY created_at DESC` performs: `created_at` is a
TEXT column, so SQLite compares the stored strings under BINARY collation,
largest (most recent) first. -/
def createdAtDesc (a b : MessageRow) : Prop :=
  strLe b.created_at a.created_at = true

instance : DecidableRel createdAtDesc := fun _ _ =>
  inferInstanceAs (Decidable (_ = true))

/-- Model of `SqliteStore::get_recent_messages`: `SELECT .. FROM messages
WHERE channel_id = ?1 ORDER BY created_at DESC LIMIT ?2`, then the row-mapper
loop.  A mapper parse failure surfaces as a recoverable error here (no
`unwrap` on this path). -/
def get_recent_messages (db : MessagesDb) (channel_id : ℤ) (limit : ℕ) :
    Except SqliteError (List Message) :=
  match rowsToMessages
      (((db.rows.filter (fun r => r.channel_id == channel_id)).insertionSort
        createdAtDesc).take limit) with
  | some msgs => .ok msgs
  | none => .error .invalidQuery

/-- A stored `documents` row. -/
structure DocumentRow where
  id : ℤ
  doc_id : String
  document : String
deriving DecidableEq, Repr

/-- A stored `embeddings` (vec0 virtual table) row: keyed by `rowid`, holding
the serialized `f32` cells of the blob. -/
structure EmbeddingRow where
  rowid : ℤ
  embedding : List F32
deriving DecidableEq, Repr

/-- The document-side state: `documents` rows, `embeddings` rows, and the
next AUTOINCREMENT id of `documents` (AUTOINCREMENT never reuses ids). -/
structure DocumentsDb where
  documents : List DocumentRow
  embeddings : List EmbeddingRow
  nextId : ℤ
deriving DecidableEq, Repr

/-- Input to `add_documents`: `rig::embeddings::DocumentEmbeddings` — the
caller-supplied string key, the JSON payload (kept abstract as its string
rendering), and the already-generated embedding vectors. -/
structure DocumentEmbeddings where
  id : String
  document : String
  embeddings : List (List ℚ)

/-- One iteration of the `add_documents` loop: `INSERT OR REPLACE INTO
documents (doc_id, document) VALUES (?1, ?2)` — on a `doc_id` conflict SQLite
deletes the old row and inserts a fresh one, whose AUTOINCREMENT id is new —
then `last_insert_rowid()` and, for each embedding vector, `INSERT INTO
embeddings (rowid, embedding)`.  The vec0 table rejects a duplicate rowid
(so a document with two or more vectors fails on its second insert).
Nothing deletes embedding rows that belonged to a replaced document. -/
def addOneDocument (db : DocumentsDb) (doc : DocumentEmbeddings) :
    Except SqliteError DocumentsDb :=
  let newId := db.nextId
  let docs := (db.documents.filter (fun r => r.doc_id != doc.id)) ++
    [⟨newId, doc.id, doc.document⟩]
  (doc.embeddings.foldlM (fun (embs : List EmbeddingRow) (v : List ℚ) =>
      if embs.any (fun er => er.rowid == newId) then
        Except.error SqliteError.constraintViolation
      else Except.ok (embs ++ [⟨newId, serialize_embedding v⟩]))
    db.embeddings).map (fun embs => ⟨docs, embs, db.nextId + 1⟩)

/-- The transaction body of `SqliteStore::add_documents`: the loop over all
supplied documents. -/
def add_documents_tx (db : DocumentsDb) (docs : List DocumentEmbeddings) :
    Except SqliteError DocumentsDb :=
  docs.foldlM addOneDocument db

/-- Model of `SqliteStore::add_documents`: run the transaction body; on
success the transaction commits, on any failure it rolls back and the store
is returned unchanged. -/
def add_documents (db : DocumentsDb) (docs : List DocumentEmbeddings) :
    Except SqliteError Unit × DocumentsDb :=
  match add_documents_tx db docs with
  | .ok db2 => (.ok (), db2)
  | .error e => (.error e, db)

/-- Model of `SqliteStore::get_document`: `SELECT document FROM documents
WHERE doc_id = ?1` with `.optional()` — a miss is `None`.  (The serde
deserialization of the stored JSON into the caller's type is kept abstract:
the payload string is returned as stored.) -/
def get_document (db : DocumentsDb) (id : String) : Option String :=
  (db.documents.find? (fun r => r.doc_id == id)).map (fun r => r.document)

/-- Model of `SqliteVectorIndex::top_n`.  `knnRows` is what the vec0
`MATCH ?1 AND k = ?2 ORDER BY e.distance` collaborator produced:
`(rowid, distance)` pairs in its ascending-distance order.  The SQL joins
`embeddings e` with `documents d ON e.rowid = d.id`, so a rowid with no
owning `documents` row is dropped by the join; the Rust loop then fetches
each surviving `doc_id` via `get_document` and silently skips a `None`. -/
def top_n (db : DocumentsDb) (knnRows : List (ℤ × ℚ)) :
    Except SqliteError (List (ℚ × String × String)) :=
  let rows := knnRows.filterMap (fun p =>
    (db.documents.find? (fun d => d.id == p.1)).map (fun d => (d.doc_id, p.2)))
  .ok (rows.filterMap (fun p =>
    (get_document db p.1).map (fun doc => (p.2, p.1, doc))))

end SqliteStore

/-! ## `KnowledgeBase` (`asuka-core/src/knowledge/store.rs`)

Its own migration creates `accounts(id AUTOINCREMENT, name TEXT NOT NULL,
source_id TEXT NOT NULL UNIQUE, source, created_at, updated_at)` — note that
`name` carries NO unique constraint here — and `messages(id, channel_id,
account_id, content, role, reply_to_id, created_at)`. -/

namespace KnowledgeBase

/-- A stored `accounts` row of the `KnowledgeBase` schema. -/
structure AccountRow where
  id : ℤ
  name : String
  source : String
  source_id : String
  created_at : String
  updated_at : String
deriving DecidableEq, Repr

/-- In the `KnowledgeBase` schema the only unique constraints on `accounts`
are the INTEGER PRIMARY KEY and `source_id TEXT NOT NULL UNIQUE`; `name` has
no unique index. -/
def accountsNameHasUniqueIndex : Bool := false

/-- SQLite accepts an `ON CONFLICT(col) DO UPDATE` clause only when `col` is
covered by a unique index; otherwise preparing the statement fails with
"ON CONFLICT clause does not match any PRIMARY KEY or UNIQUE constraint". -/
def prepareUpsertOnName (hasUniqueIndexOnName : Bool) : Except SqliteError Unit :=
  if hasUniqueIndexOnName then .ok () else .error .prepareError

/-- Model of `KnowledgeBase::create_user`: `INSERT INTO accounts (name,
source, created_at, updated_at, source_id) VALUES (..) ON CONFLICT(name)
DO UPDATE SET updated_at = CURRENT_TIMESTAMP RETURNING id`.  Because this
schema has no unique index on `name`, the statement never prepares; the
upsert branch below is what the statement would do if it did.  `freshId`
stands for the AUTOINCREMENT id a successful insert would receive. -/
def create_user (db : List AccountRow) (name source source_id : String)
    (now : String) (freshId : ℤ) : Except SqliteError (ℤ × List AccountRow) := do
  let _ ← prepareUpsertOnName accountsNameHasUniqueIndex
  match db.find? (fun r => r.name == name) with
  | some row =>
    pure (row.id, db.map (fun r =>
      if r.name == name then { r with updated_at := now } else r))
  | none => pure (freshId, db ++ [⟨freshId, name, source, source_id, now, now⟩])

/-- Model of `KnowledgeBase::get_user_by_source`: `SELECT source_id, name,
source, created_at, updated_at FROM accounts WHERE source = ?1`, mapped into
`Account` with `id: row.get(0)?`.  Column 0 is the TEXT `source_id`, and
rusqlite's `FromSql` for `i64` rejects a TEXT value, so every hit fails with
`InvalidColumnType` before the timestamp `.parse().unwrap()` is reached;
a miss is still `Ok(None)` via `.optional()`. -/
def get_user_by_source (db : List AccountRow) (source : String) :
    Except SqliteError (Option SqliteStore.Account) :=
  match db.find? (fun r => r.source == source) with
  | none => .ok none
  | some _ => .error .invalidColumnType

/-- Model of `KnowledgeBase::create_message`.  The embedding is generated
first (`EmbeddingsBuilder::build().await?`): a provider failure returns
before any database work.  Otherwise a transaction opens and executes
`INSERT INTO channels (id, channel_id, account_id, content, role, created_at,
updated_at) VALUES (..) ON CONFLICT (id) DO UPDATE SET` — a statement whose
`DO UPDATE SET` has an empty assignment list (a syntax error) and whose
column list does not match the `channels` table; it fails to prepare, the
transaction rolls back, and the state is unchanged.  No path writes a
`messages` row. -/
def create_message (embedResult : Except ProviderError (List (List ℚ)))
    (st : SqliteStore.MessagesDb) : Except SqliteError ℤ × SqliteStore.MessagesDb :=
  match embedResult with
  | .error _ => (.error .providerError, st)
  | .ok _ => (.error .prepareError, st)

/-- Model of `KnowledgeBase::add_documents`: build the embeddings first
(`EmbeddingsBuilder::build().await?` — a provider failure returns before any
store access), then hand the embedded documents to the store-side
`add_documents` dual write. -/
def add_documents
    (embedResult : Except ProviderError (List SqliteStore.DocumentEmbeddings))
    (db : SqliteStore.DocumentsDb) :
    Except SqliteError Unit × SqliteStore.DocumentsDb :=
  match embedResult with
  | .error _ => (.error .providerError, db)
  | .ok docs => SqliteStore.add_documents db docs

/-- Columns of the `messages` table created by `KnowledgeBase::new`. -/
def messagesTableColumns : List String :=
  ["id", "channel_id", "account_id", "content", "role", "reply_to_id",
    "created_at"]

/-- Columns named by the SELECT in `KnowledgeBase::get_recent_messages`. -/
def recentMessagesSelectColumns : List String :=
  ["id", "source", "source_id", "channel_type", "channel_id", "account_id",
    "role", "content", "created_at"]

/-- Model of `KnowledgeBase::get_recent_messages`: the SELECT names columns
(`source`, `source_id`, `channel_type`) that the `messages` table does not
have, so preparing the statement fails (`no such column`) on every call.
Were the column list valid, the query itself is the same
`WHERE channel_id = ?1 ORDER BY created_at DESC LIMIT ?2` shape as the
`SqliteStore` version. -/
def get_recent_messages (db : SqliteStore.MessagesDb) (channel_id : ℤ)
    (limit : ℕ) : Except SqliteError (List SqliteStore.Message) :=
  if recentMessagesSelectColumns.all (fun c => messagesTableColumns.contains c) then
    SqliteStore.get_recent_messages db channel_id limit
  else .error .prepareError

end KnowledgeBase

/-! ## Lemmas: the vector codec -/

theorem rheNat_bound (p q : ℕ) (hq : 0 < q) :
    |(rheNat p q : ℚ) - (p : ℚ) / q| ≤ 1 / 2 := by
  have hq0 : (0 : ℚ) < (q : ℚ) := by exact_mod_cast hq
  have hsplit : ((p / q : ℕ) : ℚ) + ((p % q : ℕ) : ℚ) / q = (p : ℚ) / q := by
    field_simp
    exact_mod_cast Nat.div_add_mod' p q
  have hR0 : (0 : ℚ) ≤ ((p % q : ℕ) : ℚ) := by positivity
  have hRq : ((p % q : ℕ) : ℚ) < (q : ℚ) := by exact_mod_cast Nat.mod_lt p hq
  have hRq1 : ((p % q : ℕ) : ℚ) / q < 1 := (div_lt_one hq0).mpr hRq
  have hRq0 : (0 : ℚ) ≤ ((p % q : ℕ) : ℚ) / q := div_nonneg hR0 hq0.le
  unfold rheNat
  split_ifs with h1 h2 h3
  · have h1q : ((2 * (p % q) : ℕ) : ℚ) < (q : ℚ) := by exact_mod_cast h1
    push_cast at h1q
    have hlt : ((p % q : ℕ) : ℚ) / q < 1 / 2 := by
      rw [div_lt_div_iff₀ hq0 (by norm_num)]
      linarith
    rw [← hsplit, abs_le]
    constructor <;> linarith
  · have h2q : (q : ℚ) < ((2 * (p % q) : ℕ) : ℚ) := by exact_mod_cast h2
    push_cast at h2q
    have hlt : (1 : ℚ) / 2 < ((p % q : ℕ) : ℚ) / q := by
      rw [div_lt_div_iff₀ (by norm_num) hq0]
      linarith
    rw [← hsplit]
    push_cast
    rw [abs_le]
    constructor <;> linarith
  · have h2R : ((2 * (p % q) : ℕ) : ℚ) = (q : ℚ) := by
      exact_mod_cast le_antisymm (not_lt.mp h2) (not_lt.mp h1)
    push_cast at h2R
    have heq : ((p % q : ℕ) : ℚ) / q = 1 / 2 := by
      field_simp
      linarith
    rw [← hsplit, abs_le]
    constructor <;> linarith
  · have h2R : ((2 * (p % q) : ℕ) : ℚ) = (q : ℚ) := by
      exact_mod_cast le_antisymm (not_lt.mp h2) (not_lt.mp h1)
    push_cast at h2R
    have heq : ((p % q : ℕ) : ℚ) / q = 1 / 2 := by
      field_simp
      linarith
    rw [← hsplit]
    push_cast
    rw [abs_le]
    constructor <;> linarith

theorem pow2LeRat_iff (e : ℤ) (n d : ℕ) (hd : 0 < d) :
    pow2LeRat e n d = true ↔ (2 : ℚ) ^ e ≤ (n : ℚ) / d := by
  have hd0 : (0 : ℚ) < (d : ℚ) := by exact_mod_cast hd
  unfold pow2LeRat
  split_ifs with he
  · rw [decide_eq_true_iff]
    have hcast : (2 : ℚ) ^ e = ((2 ^ e.toNat : ℕ) : ℚ) := by
      push_cast
      rw [← zpow_natCast, Int.toNat_of_nonneg he]
    rw [hcast, le_div_iff₀ hd0]
    constructor
    · intro h
      exact_mod_cast h
    · intro h
      exact_mod_cast h
  · push_neg at he
    rw [decide_eq_true_iff]
    have hcast : (1 : ℚ) / ((2 ^ (-e).toNat : ℕ) : ℚ) = (2 : ℚ) ^ e := by
      have h1 : ((2 ^ (-e).toNat : ℕ) : ℚ) = (2 : ℚ) ^ (-e) := by
        push_cast
        rw [← zpow_natCast, Int.toNat_of_nonneg (by omega : (0:ℤ) ≤ -e)]
      rw [h1, one_div, ← zpow_neg, neg_neg]
    have hk0 : (0 : ℚ) < ((2 ^ (-e).toNat : ℕ) : ℚ) := by positivity
    rw [← hcast, div_le_div_iff₀ hk0 hd0]
    constructor
    · intro h
      calc (1 : ℚ) * d = (d : ℚ) := by ring
        _ ≤ ((2 ^ (-e).toNat * n : ℕ) : ℚ) := by exact_mod_cast h
        _ = (n : ℚ) * (2 ^ (-e).toNat : ℕ) := by push_cast; ring
    · intro h
      have h2 : (d : ℚ) ≤ (n : ℚ) * ((2 ^ (-e).toNat : ℕ) : ℚ) := by linarith
      exact_mod_cast (by push_cast at h2 ⊢; linarith : (d : ℚ) ≤ ((2 ^ (-e).toNat * n : ℕ) : ℚ))

theorem findExp_descList_spec (n d : ℕ) (hd : 0 < d) :
    ∀ (k : ℕ) (e : ℤ), (n : ℚ) / d < 2 ^ (e + 1) → (2 : ℚ) ^ (e - k + 1) ≤ (n : ℚ) / d →
      (2 : ℚ) ^ (findExp n d (descList e k)) ≤ (n : ℚ) / d ∧
      (n : ℚ) / d < 2 ^ (findExp n d (descList e k) + 1) ∧
      e - k + 1 ≤ findExp n d (descList e k) ∧ findExp n d (descList e k) ≤ e
  | 0, e, hub, hlb => by
    exact absurd (lt_of_le_of_lt (by simpa using hlb) hub) (lt_irrefl _)
  | k + 1, e, hub, hlb => by
    simp only [descList, findExp]
    by_cases hc : pow2LeRat e n d = true
    · simp only [hc, if_true]
      refine ⟨(pow2LeRat_iff e n d hd).mp hc, hub, by push_cast; omega, le_refl e⟩
    · simp only [hc, if_false]
      have h2 : (n : ℚ) / d < 2 ^ e := by
        by_contra hcon
        push_neg at hcon
        exact hc ((pow2LeRat_iff e n d hd).mpr hcon)
      have hub2 : (n : ℚ) / d < 2 ^ ((e - 1) + 1) := by
        rw [sub_add_cancel]
        exact h2
      have hlb2 : (2 : ℚ) ^ ((e - 1) - k + 1) ≤ (n : ℚ) / d := by
        have hexp : ((e - 1) - (k : ℤ) + 1) = e - (k + 1 : ℕ) + 1 := by push_cast; ring
        rw [hexp]
        exact hlb
      obtain ⟨ih1, ih2, ih3, ih4⟩ := findExp_descList_spec n d hd k (e - 1) hub2 hlb2
      refine ⟨ih1, ih2, by push_cast at ih3 ⊢; omega, by omega⟩

/-- The absolute value of a rational as natAbs over den. -/
theorem abs_eq_natAbs_div (x : ℚ) : |x| = (x.num.natAbs : ℚ) / (x.den : ℚ) := by
  conv_lhs => rw [← Rat.num_div_den x]
  rw [abs_div, Int.cast_natAbs, Int.cast_abs]
  congr 1
  rw [abs_of_pos (by exact_mod_cast x.den_pos : (0:ℚ) < (x.den : ℚ))]

theorem f32Exp_spec (x : ℚ) (hlo : (2 : ℚ) ^ (-126 : ℤ) ≤ |x|)
    (hub : |x| < (2 : ℚ) ^ (128 : ℤ)) :
    (2 : ℚ) ^ (f32Exp x) ≤ |x| ∧ |x| < 2 ^ (f32Exp x + 1) ∧
      -126 ≤ f32Exp x ∧ f32Exp x ≤ 127 := by
  have hd : 0 < x.den := x.den_pos
  rw [abs_eq_natAbs_div] at hlo hub ⊢
  have hub2 : (x.num.natAbs : ℚ) / (x.den : ℚ) < 2 ^ ((127 : ℤ) + 1) := by
    rw [show ((127:ℤ) + 1) = (128:ℤ) from by omega]
    exact hub
  have hlb2 : (2 : ℚ) ^ ((127 : ℤ) - (254 : ℕ) + 1) ≤ (x.num.natAbs : ℚ) / (x.den : ℚ) := by
    rw [show ((127:ℤ) - (254 : ℕ) + 1) = (-126 : ℤ) from by omega]
    exact hlo
  obtain ⟨h1, h2, h3, h4⟩ := findExp_descList_spec x.num.natAbs x.den hd 254 127 hub2 hlb2
  push_cast at h3
  unfold f32Exp f32ExpCandidates
  exact ⟨h1, h2, by omega, h4⟩


theorem f32Mantissa_bound (x : ℚ) :
    |(f32Mantissa x : ℚ) - |x| * (2 : ℚ) ^ ((23 : ℤ) - f32Exp x)| ≤ 1 / 2 := by
  have hd : 0 < x.den := x.den_pos
  have hd0 : (0 : ℚ) < (x.den : ℚ) := by exact_mod_cast hd
  unfold f32Mantissa
  split_ifs with h23
  · have hq : 0 < x.den * 2 ^ (f32Exp x - 23).toNat := by positivity
    have hb := rheNat_bound x.num.natAbs (x.den * 2 ^ (f32Exp x - 23).toNat) hq
    have hval : ((x.num.natAbs : ℕ) : ℚ) / ((x.den * 2 ^ (f32Exp x - 23).toNat : ℕ) : ℚ)
        = |x| * (2 : ℚ) ^ ((23 : ℤ) - f32Exp x) := by
      rw [abs_eq_natAbs_div]
      push_cast
      rw [← zpow_natCast (2 : ℚ) (f32Exp x - 23).toNat,
        Int.toNat_of_nonneg (by omega : (0 : ℤ) ≤ f32Exp x - 23)]
      rw [div_mul_eq_div_div, div_eq_mul_inv ((x.num.natAbs : ℚ) / (x.den : ℚ)),
        ← zpow_neg, neg_sub]
    rw [← hval]
    exact hb
  · have hb := rheNat_bound (x.num.natAbs * 2 ^ (23 - f32Exp x).toNat) x.den hd
    have hval : ((x.num.natAbs * 2 ^ (23 - f32Exp x).toNat : ℕ) : ℚ) / ((x.den : ℕ) : ℚ)
        = |x| * (2 : ℚ) ^ ((23 : ℤ) - f32Exp x) := by
      rw [abs_eq_natAbs_div]
      push_cast
      rw [← zpow_natCast (2 : ℚ) (23 - f32Exp x).toNat,
        Int.toNat_of_nonneg (by omega : (0 : ℤ) ≤ 23 - f32Exp x)]
      ring
    rw [← hval]
    exact hb

theorem toF32_roundtrip_bound (x : ℚ)
    (hrange : x = 0 ∨ ((2 : ℚ) ^ (-126 : ℤ) ≤ |x| ∧ |x| ≤ ((2 ^ 24 - 1) * 2 ^ 104 : ℚ))) :
    ∃ d : ℚ, f32ToF64 (toF32 x) = some d ∧ |d - x| ≤ (2 : ℚ) ^ (-23 : ℤ) * |x| := by
  have h2ne : (2 : ℚ) ≠ 0 := by norm_num
  rcases hrange with rfl | ⟨hlo, hhi⟩
  · refine ⟨0, ?_, by norm_num⟩
    rw [show toF32 0 = .finite false 0 0 from by unfold toF32; norm_num]
    unfold f32ToF64
    norm_num
  · have hx : x ≠ 0 := by
      intro h
      rw [h, abs_zero] at hlo
      exact absurd hlo (not_le.mpr (zpow_pos (by norm_num) _))
    have hMaxlt : ((2 ^ 24 - 1) * 2 ^ 104 : ℚ) < (2 : ℚ) ^ (128 : ℤ) := by
      rw [show (128 : ℤ) = ((128 : ℕ) : ℤ) from by omega, zpow_natCast]
      norm_num
    have hub : |x| < (2 : ℚ) ^ (128 : ℤ) := lt_of_le_of_lt hhi hMaxlt
    obtain ⟨he1, he2, he3, he4⟩ := f32Exp_spec x hlo hub
    have ha0 : (0 : ℚ) < |x| := abs_pos.mpr hx
    have hm := f32Mantissa_bound x
    have hp23 : (0 : ℚ) < (2 : ℚ) ^ (f32Exp x - 23) := zpow_pos (by norm_num) _
    have hr : abs ((f32Mantissa x : ℚ) * (2 : ℚ) ^ (f32Exp x - 23) - |x|) ≤ (2 : ℚ) ^ (f32Exp x - 24) := by
      have hxx : ((f32Mantissa x : ℚ) - |x| * (2 : ℚ) ^ ((23 : ℤ) - f32Exp x)) * (2 : ℚ) ^ (f32Exp x - 23)
          = (f32Mantissa x : ℚ) * (2 : ℚ) ^ (f32Exp x - 23) - |x| := by
        rw [sub_mul, mul_assoc, ← zpow_add₀ h2ne]
        norm_num
      have hhalf : (1 : ℚ) / 2 * (2 : ℚ) ^ (f32Exp x - 23) = (2 : ℚ) ^ (f32Exp x - 24) := by
        rw [show f32Exp x - 24 = (-1) + (f32Exp x - 23) from by ring, zpow_add₀ h2ne]
        norm_num
      calc abs ((f32Mantissa x : ℚ) * (2 : ℚ) ^ (f32Exp x - 23) - |x|)
          = abs ((f32Mantissa x : ℚ) - |x| * (2 : ℚ) ^ ((23 : ℤ) - f32Exp x)) * (2 : ℚ) ^ (f32Exp x - 23) := by
            rw [← hxx, abs_mul, abs_of_pos hp23]
        _ ≤ 1 / 2 * (2 : ℚ) ^ (f32Exp x - 23) := mul_le_mul_of_nonneg_right hm hp23.le
        _ = (2 : ℚ) ^ (f32Exp x - 24) := hhalf
    have hm_ub : (f32Mantissa x : ℚ) ≤ |x| * (2 : ℚ) ^ ((23 : ℤ) - f32Exp x) + 1 / 2 := by
      have := (abs_le.mp hm).2
      linarith
    have hstep : |x| * (2 : ℚ) ^ ((23 : ℤ) - f32Exp x)
        ≤ ((2 ^ 24 - 1 : ℚ)) * (2 : ℚ) ^ ((127 : ℤ) - f32Exp x) := by
      have h1 : |x| * (2 : ℚ) ^ ((23 : ℤ) - f32Exp x)
          ≤ ((2 ^ 24 - 1) * 2 ^ 104 : ℚ) * (2 : ℚ) ^ ((23 : ℤ) - f32Exp x) :=
        mul_le_mul_of_nonneg_right hhi (zpow_pos (by norm_num) _).le
      have h2 : ((2 ^ 24 - 1) * 2 ^ 104 : ℚ) * (2 : ℚ) ^ ((23 : ℤ) - f32Exp x)
          = ((2 ^ 24 - 1 : ℚ)) * (2 : ℚ) ^ ((127 : ℤ) - f32Exp x) := by
        rw [show ((2 ^ 104 : ℚ)) = (2 : ℚ) ^ ((104 : ℕ) : ℤ) from by rw [zpow_natCast]]
        rw [mul_assoc, ← zpow_add₀ h2ne]
        norm_num
        omega
      linarith
    have hone : (1 : ℚ) / 2 < (2 : ℚ) ^ ((127 : ℤ) - f32Exp x) := by
      have hz : (2 : ℚ) ^ (0 : ℤ) ≤ (2 : ℚ) ^ ((127 : ℤ) - f32Exp x) :=
        zpow_le_zpow_right₀ (by norm_num) (by omega)
      rw [zpow_zero] at hz
      linarith
    have hmlt : (f32Mantissa x : ℚ) < (2 : ℚ) ^ ((151 : ℤ) - f32Exp x) := by
      have hsum : ((2 ^ 24 - 1 : ℚ)) * (2 : ℚ) ^ ((127 : ℤ) - f32Exp x) + (2 : ℚ) ^ ((127 : ℤ) - f32Exp x)
          = (2 : ℚ) ^ ((151 : ℤ) - f32Exp x) := by
        have hfac : ((2 ^ 24 - 1 : ℚ)) * (2 : ℚ) ^ ((127 : ℤ) - f32Exp x) + (2 : ℚ) ^ ((127 : ℤ) - f32Exp x)
            = (2 : ℚ) ^ ((24 : ℕ) : ℤ) * (2 : ℚ) ^ ((127 : ℤ) - f32Exp x) := by
          rw [zpow_natCast]
          ring
        rw [hfac, ← zpow_add₀ h2ne]
        norm_num
        omega
      linarith
    have hover : ¬ (2 ^ (151 - f32Exp x).toNat ≤ f32Mantissa x) := by
      intro hcon
      have hcast : ((2 ^ (151 - f32Exp x).toNat : ℕ) : ℚ) = (2 : ℚ) ^ ((151 : ℤ) - f32Exp x) := by
        push_cast
        rw [← zpow_natCast, Int.toNat_of_nonneg (by omega : (0 : ℤ) ≤ 151 - f32Exp x)]
      have hge : (2 : ℚ) ^ ((151 : ℤ) - f32Exp x) ≤ (f32Mantissa x : ℚ) := by
        rw [← hcast]
        exact_mod_cast hcon
      linarith
    have htf : toF32 x = .finite (decide (x.num < 0)) (f32Mantissa x) (f32Exp x - 23) := by
      unfold toF32
      rw [if_neg hx, if_neg hover]
    have hfinal : (2 : ℚ) ^ (f32Exp x - 24) ≤ (2 : ℚ) ^ (-23 : ℤ) * |x| := by
      have h1 : (2 : ℚ) ^ (f32Exp x - 24) = (2 : ℚ) ^ (f32Exp x) * (2 : ℚ) ^ (-24 : ℤ) := by
        rw [← zpow_add₀ h2ne]
        norm_num
        omega
      have h2 : (2 : ℚ) ^ (f32Exp x) * (2 : ℚ) ^ (-24 : ℤ) ≤ |x| * (2 : ℚ) ^ (-24 : ℤ) :=
        mul_le_mul_of_nonneg_right he1 (zpow_pos (by norm_num) _).le
      have h3 : |x| * (2 : ℚ) ^ (-24 : ℤ) ≤ |x| * (2 : ℚ) ^ (-23 : ℤ) :=
        mul_le_mul_of_nonneg_left (zpow_le_zpow_right₀ (by norm_num) (by omega)) (abs_nonneg x)
      calc (2 : ℚ) ^ (f32Exp x - 24) = (2 : ℚ) ^ (f32Exp x) * (2 : ℚ) ^ (-24 : ℤ) := h1
        _ ≤ |x| * (2 : ℚ) ^ (-24 : ℤ) := h2
        _ ≤ |x| * (2 : ℚ) ^ (-23 : ℤ) := h3
        _ = (2 : ℚ) ^ (-23 : ℤ) * |x| := by ring
    rw [htf]
    by_cases hneg : x.num < 0
    · have hxneg : x < 0 := by
        by_contra hcon
        push_neg at hcon
        exact absurd (Rat.num_nonneg.mpr hcon) (not_le.mpr hneg)
      refine ⟨-1 * (f32Mantissa x : ℚ) * (2 : ℚ) ^ (f32Exp x - 23), ?_, ?_⟩
      · unfold f32ToF64
        simp [hneg]
      · have habs : |x| = -x := abs_of_neg hxneg
        have hgoal : abs (-1 * (f32Mantissa x : ℚ) * (2 : ℚ) ^ (f32Exp x - 23) - x)
            = abs ((f32Mantissa x : ℚ) * (2 : ℚ) ^ (f32Exp x - 23) - |x|) := by
          rw [habs]
          rw [show -1 * (f32Mantissa x : ℚ) * (2 : ℚ) ^ (f32Exp x - 23) - x
            = -((f32Mantissa x : ℚ) * (2 : ℚ) ^ (f32Exp x - 23) - -x) from by ring]
          rw [abs_neg]
        rw [hgoal]
        exact le_trans hr hfinal
    · have hxpos : 0 < x := by
        rcases lt_trichotomy x 0 with h | h | h
        · have hnn : ¬ (0 ≤ x.num) := fun hn => (not_le.mpr h) (Rat.num_nonneg.mp hn)
          have hnum : x.num < 0 := by omega
          exact absurd hnum hneg
        · exact absurd h hx
        · exact h
      refine ⟨1 * (f32Mantissa x : ℚ) * (2 : ℚ) ^ (f32Exp x - 23), ?_, ?_⟩
      · unfold f32ToF64
        simp [hneg]
      · have habs : |x| = x := abs_of_pos hxpos
        rw [show (1 : ℚ) * (f32Mantissa x : ℚ) * (2 : ℚ) ^ (f32Exp x - 23) - x
          = (f32Mantissa x : ℚ) * (2 : ℚ) ^ (f32Exp x - 23) - |x| from by rw [habs]; ring]
        exact le_trans hr hfinal

/-! ## Lemmas: lexicographic TEXT comparison -/

theorem lexLe_cons (a b : Char) (as bs : List Char) :
    lexLe (a :: as) (b :: bs) = true ↔
      (a.toNat < b.toNat ∨ (a.toNat = b.toNat ∧ lexLe as bs = true)) := by
  simp only [lexLe]
  rcases Nat.lt_trichotomy a.toNat b.toNat with h | h | h
  · simp [h]
  · have h1 : ¬ a.toNat < b.toNat := by omega
    have h2 : ¬ b.toNat < a.toNat := by omega
    simp [h1, h2, h]
  · have h1 : ¬ a.toNat < b.toNat := by omega
    have h2 : a.toNat ≠ b.toNat := by omega
    simp [h1, h, h2]

theorem lexLe_total : ∀ as bs : List Char, lexLe as bs = true ∨ lexLe bs as = true
  | [], _ => Or.inl rfl
  | _ :: _, [] => Or.inr rfl
  | a :: as, b :: bs => by
    rcases Nat.lt_trichotomy a.toNat b.toNat with h | h | h
    · exact Or.inl ((lexLe_cons _ _ _ _).mpr (Or.inl h))
    · rcases lexLe_total as bs with ih | ih
      · exact Or.inl ((lexLe_cons _ _ _ _).mpr (Or.inr ⟨h, ih⟩))
      · exact Or.inr ((lexLe_cons _ _ _ _).mpr (Or.inr ⟨h.symm, ih⟩))
    · exact Or.inr ((lexLe_cons _ _ _ _).mpr (Or.inl h))

theorem lexLe_trans : ∀ as bs cs : List Char,
    lexLe as bs = true → lexLe bs cs = true → lexLe as cs = true
  | [], _, _, _, _ => rfl
  | _ :: _, [], _, h1, _ => by simp [lexLe] at h1
  | _ :: _, _ :: _, [], _, h2 => by simp [lexLe] at h2
  | a :: as, b :: bs, c :: cs, h1, h2 => by
    rcases (lexLe_cons _ _ _ _).mp h1 with hab | ⟨hab, hab2⟩ <;>
      rcases (lexLe_cons _ _ _ _).mp h2 with hbc | ⟨hbc, hbc2⟩
    · exact (lexLe_cons _ _ _ _).mpr (Or.inl (hab.trans hbc))
    · exact (lexLe_cons _ _ _ _).mpr (Or.inl (hbc ▸ hab))
    · exact (lexLe_cons _ _ _ _).mpr (Or.inl (hab ▸ hbc))
    · exact (lexLe_cons _ _ _ _).mpr
        (Or.inr ⟨hab.trans hbc, lexLe_trans as bs cs hab2 hbc2⟩)

/-! ## Lemmas: list helpers -/

theorem chunks4_length {α : Type} : ∀ l : List α,
    (l.length % 4 = 0 → ∃ cs, chunks4 l = some cs) ∧
    (l.length % 4 ≠ 0 → chunks4 l = none)
  | [] => ⟨fun _ => ⟨[], rfl⟩, fun h => absurd rfl h⟩
  | [_] => ⟨fun h => by norm_num at h, fun _ => rfl⟩
  | [_, _] => ⟨fun h => by norm_num at h, fun _ => rfl⟩
  | [_, _, _] => ⟨fun h => by norm_num at h, fun _ => rfl⟩
  | a :: b :: c :: d :: rest => by
    have ih := chunks4_length rest
    have hlen : (a :: b :: c :: d :: rest).length = rest.length + 4 := by
      simp [List.length_cons]
    constructor
    · intro h
      rw [hlen] at h
      obtain ⟨cs, hcs⟩ := ih.1 (by omega)
      exact ⟨(a, b, c, d) :: cs, by simp [chunks4, hcs]⟩
    · intro h
      rw [hlen] at h
      have := ih.2 (by omega)
      simp [chunks4, this]

theorem forall₂_mem_right {α β : Type} {R : α → β → Prop} :
    ∀ {l₁ : List α} {l₂ : List β}, List.Forall₂ R l₁ l₂ → ∀ b ∈ l₂, ∃ a ∈ l₁, R a b
  | _, _, List.Forall₂.nil, b, hb => absurd hb (List.not_mem_nil b)
  | _, _, List.Forall₂.cons h ht, b, hb => by
    rcases List.mem_cons.mp hb with rfl | hbt
    · exact ⟨_, List.mem_cons_self _ _, h⟩
    · obtain ⟨a, ha, hr⟩ := forall₂_mem_right ht b hbt
      exact ⟨a, List.mem_cons_of_mem _ ha, hr⟩

theorem rowsToMessages_of_parses :
    ∀ l : List SqliteStore.MessageRow,
    (∀ r ∈ l, (parseSqliteTimestamp r.created_at).isSome) →
    ∃ ms, SqliteStore.rowsToMessages l = some ms ∧
      List.Forall₂ (fun (r : SqliteStore.MessageRow) (m : SqliteStore.Message) =>
        m.id = r.id ∧ m.channel_id = r.channel_id ∧ m.account_id = r.account_id ∧
        m.role = r.role ∧ m.content = r.content ∧ m.reply_to_id = r.reply_to_id ∧
        parseSqliteTimestamp r.created_at = some m.created_at) l ms
  | [], _ => ⟨[], rfl, List.Forall₂.nil⟩
  | r :: rest, h => by
    have hr := h r (List.mem_cons_self r rest)
    obtain ⟨ts, hts⟩ := Option.isSome_iff_exists.mp hr
    obtain ⟨ms, hms, hf⟩ :=
      rowsToMessages_of_parses rest (fun x hx => h x (List.mem_cons_of_mem r hx))
    refine ⟨⟨r.id, r.channel_id, r.account_id, r.role, r.content, r.reply_to_id, ts⟩ :: ms,
      ?_, ?_⟩
    · unfold SqliteStore.rowsToMessages
      rw [hts, hms]
    · exact List.Forall₂.cons ⟨rfl, rfl, rfl, rfl, rfl, rfl, hts⟩ hf

theorem find?_doc_id_self :
    ∀ l : List SqliteStore.DocumentRow,
    l.Pairwise (fun a b => a.doc_id ≠ b.doc_id) →
    ∀ d ∈ l, l.find? (fun x => x.doc_id == d.doc_id) = some d
  | [], _, d, hd => absurd hd (List.not_mem_nil d)
  | a :: t, hp, d, hd => by
    rcases List.mem_cons.mp hd with rfl | hdt
    · simp [List.find?]
    · have hne : a.doc_id ≠ d.doc_id := (List.pairwise_cons.mp hp).1 d hdt
      have hbeq : (a.doc_id == d.doc_id) = false := by simpa using hne
      rw [List.find?]
      rw [hbeq]
      exact find?_doc_id_self t (List.pairwise_cons.mp hp).2 d hdt


/-! ## Claims -/

/-- C1: for the add operations (`KnowledgeBase::create_message`,
`KnowledgeBase::add_documents` feeding the store-side dual write), a failure
of the Embedding Provider makes the operation return an error with no row
added to either the relational store or the vector index: the state returned
is exactly the state passed in.  (The embedding call happens before any
database work, so the failed add is atomic across both stores.) -/
theorem C1_provider_failure_is_atomic (e : ProviderError)
    (docDb : SqliteStore.DocumentsDb) (msgDb : SqliteStore.MessagesDb) :
    KnowledgeBase.add_documents (.error e) docDb = (.error .providerError, docDb) ∧
    KnowledgeBase.create_message (.error e) msgDb = (.error .providerError, msgDb) :=
  ⟨rfl, rfl⟩

/-- C2 (the code evaluated at the failing input): starting from an empty
store, `add_documents` of document "a" and then `add_documents` of "a" again
(the insert-or-replace path) succeeds, but leaves `documents` holding only
the fresh row id 2 while `embeddings` still holds rowids 1 and 2: the
embedding row with rowid 1 names no existing `documents` row, so the claimed
invariant is violated and the replaced document's embeddings were not
deleted. -/
theorem C2_replace_orphans_embedding_rows :
    ((SqliteStore.add_documents
        (SqliteStore.add_documents ⟨[], [], 1⟩ [⟨"a", "doc1", [[1]]⟩]).2
        [⟨"a", "doc2", [[1]]⟩]).1 = .ok ()) ∧
    ((SqliteStore.add_documents
        (SqliteStore.add_documents ⟨[], [], 1⟩ [⟨"a", "doc1", [[1]]⟩]).2
        [⟨"a", "doc2", [[1]]⟩]).2.documents.map (fun dr => dr.id) = [2]) ∧
    ((SqliteStore.add_documents
        (SqliteStore.add_documents ⟨[], [], 1⟩ [⟨"a", "doc1", [[1]]⟩]).2
        [⟨"a", "doc2", [[1]]⟩]).2.embeddings.map (fun er => er.rowid) = [1, 2]) ∧
    (∃ er ∈ (SqliteStore.add_documents
        (SqliteStore.add_documents ⟨[], [], 1⟩ [⟨"a", "doc1", [[1]]⟩]).2
        [⟨"a", "doc2", [[1]]⟩]).2.embeddings,
      ∀ dr ∈ (SqliteStore.add_documents
        (SqliteStore.add_documents ⟨[], [], 1⟩ [⟨"a", "doc1", [[1]]⟩]).2
        [⟨"a", "doc2", [[1]]⟩]).2.documents, dr.id ≠ er.rowid) := by
  exact ⟨by decide, by decide, by decide, by decide⟩

/-- C3 (counterexample): the claimed bound fails on finite `f64` inputs
outside the `f32` range.  `2 ^ 200` (a finite `f64`) encodes to `+∞`, so no
finite decoded value exists; and `2 ^ (-150)` encodes to `0.0`, whose
relative error is `1`, far above `2 ^ (-23)`. -/
theorem C3_roundtrip_counterexample :
    decodeEmbeddingCells (serialize_embedding [((2 ^ 200 : ℕ) : ℚ)]) = [none] ∧
    toF32 (mkRat 1 (2 ^ 150)) = F32.finite false 0 (-149) ∧
    ¬ (∃ d : ℚ, f32ToF64 (toF32 (mkRat 1 (2 ^ 150))) = some d ∧
        |d - mkRat 1 (2 ^ 150)| ≤ (2 : ℚ) ^ (-23 : ℤ) * |mkRat 1 (2 ^ 150)|) := by
  refine ⟨by decide, by decide, ?_⟩
  rintro ⟨d, hd, hb⟩
  rw [show toF32 (mkRat 1 (2 ^ 150)) = F32.finite false 0 (-149) from by decide] at hd
  unfold f32ToF64 at hd
  have hd0 : d = 0 := by
    have := Option.some.inj hd
    rw [← this]
    norm_num
  rw [hd0, Rat.mkRat_eq_div, Int.cast_one, Nat.cast_pow, Nat.cast_ofNat, one_div] at hb
  have hpos : (0 : ℚ) < ((2 : ℚ) ^ (150 : ℕ))⁻¹ := by positivity
  rw [zero_sub, abs_neg, abs_of_pos hpos] at hb
  have h23 : (2 : ℚ) ^ (-23 : ℤ) ≤ 1 / 2 := by
    calc (2 : ℚ) ^ (-23 : ℤ) ≤ (2 : ℚ) ^ (-1 : ℤ) :=
          zpow_le_zpow_right₀ (by norm_num) (by norm_num)
      _ = 1 / 2 := by
          rw [zpow_neg, zpow_one, one_div]
  have hb2 : ((2 : ℚ) ^ (150 : ℕ))⁻¹ ≤ 1 / 2 * ((2 : ℚ) ^ (150 : ℕ))⁻¹ := by
    calc ((2 : ℚ) ^ (150 : ℕ))⁻¹ ≤ (2 : ℚ) ^ (-23 : ℤ) * ((2 : ℚ) ^ (150 : ℕ))⁻¹ := hb
      _ ≤ 1 / 2 * ((2 : ℚ) ^ (150 : ℕ))⁻¹ := mul_le_mul_of_nonneg_right h23 hpos.le
  nlinarith [hpos]

/-- C3 (amended): for every vector of `f64` values each of which is zero or
of magnitude within the `f32` normal range `[2 ^ (-126), (2 ^ 24 - 1) * 2 ^ 104]`,
the decode of the encode yields a same-length vector with
`|decoded[i] - v[i]| ≤ 2 ^ (-23) * |v[i]|` at every index. -/
theorem C3_roundtrip_bound_in_range (v : List ℚ)
    (hrange : ∀ x ∈ v, x = 0 ∨
      ((2 : ℚ) ^ (-126 : ℤ) ≤ |x| ∧ |x| ≤ ((2 ^ 24 - 1) * 2 ^ 104 : ℚ))) :
    List.Forall₂ (fun (x : ℚ) (d? : Option ℚ) => ∃ d : ℚ, d? = some d ∧
      |d - x| ≤ (2 : ℚ) ^ (-23 : ℤ) * |x|) v
      (decodeEmbeddingCells (serialize_embedding v)) := by
  unfold decodeEmbeddingCells serialize_embedding
  rw [List.map_map, List.forall₂_map_right_iff, List.forall₂_same]
  intro x hx
  exact toF32_roundtrip_bound x (hrange x hx)

/-- C3 witness: the amended bound applied to the concrete vector `[1]`. -/
theorem C3_roundtrip_bound_in_range_witness :
    (∀ x ∈ [(1 : ℚ)], x = 0 ∨
      ((2 : ℚ) ^ (-126 : ℤ) ≤ |x| ∧ |x| ≤ ((2 ^ 24 - 1) * 2 ^ 104 : ℚ))) ∧
    List.Forall₂ (fun (x : ℚ) (d? : Option ℚ) => ∃ d : ℚ, d? = some d ∧
      |d - x| ≤ (2 : ℚ) ^ (-23 : ℤ) * |x|) [(1 : ℚ)]
      (decodeEmbeddingCells (serialize_embedding [(1 : ℚ)])) := by
  have hr : ∀ x ∈ [(1 : ℚ)], x = 0 ∨
      ((2 : ℚ) ^ (-126 : ℤ) ≤ |x| ∧ |x| ≤ ((2 ^ 24 - 1) * 2 ^ 104 : ℚ)) := by
    intro x hx
    rw [List.mem_singleton] at hx
    subst hx
    right
    constructor
    · rw [abs_one]
      calc (2 : ℚ) ^ (-126 : ℤ) ≤ (2 : ℚ) ^ (0 : ℤ) :=
            zpow_le_zpow_right₀ (by norm_num) (by norm_num)
        _ = 1 := zpow_zero 2
    · rw [abs_one]
      norm_num
  exact ⟨hr, C3_roundtrip_bound_in_range [(1 : ℚ)] hr⟩


/-- C4 (code evaluated around the failing input): the embedding-blob
read-back decodes any buffer whose length is a multiple of 4, and on any
other buffer the final short chunk makes `chunk.try_into().unwrap()` panic
(`none` in the model) instead of returning a recoverable `FormatError`. -/
theorem C4_blob_decode_mod4 (bytes : List ℕ) :
    (bytes.length % 4 = 0 → ∃ ws, decodeEmbeddingBlob bytes = some ws) ∧
    (bytes.length % 4 ≠ 0 → decodeEmbeddingBlob bytes = none) := by
  unfold decodeEmbeddingBlob
  obtain ⟨h1, h2⟩ := chunks4_length bytes
  constructor
  · intro h
    obtain ⟨cs, hcs⟩ := h1 h
    exact ⟨cs.map f32FromLeBytes, by rw [hcs]; rfl⟩
  · intro h
    rw [h2 h]
    rfl

/-- C4 witness: a 5-byte buffer panics (`none`); an 8-byte buffer decodes. -/
theorem C4_blob_decode_mod4_witness :
    (([0, 0, 0, 0, 0] : List ℕ).length % 4 ≠ 0 ∧
      decodeEmbeddingBlob [0, 0, 0, 0, 0] = none) ∧
    (([0, 0, 0, 0, 0, 0, 0, 0] : List ℕ).length % 4 = 0 ∧
      ∃ ws, decodeEmbeddingBlob [0, 0, 0, 0, 0, 0, 0, 0] = some ws) :=
  ⟨⟨by decide, (C4_blob_decode_mod4 [0, 0, 0, 0, 0]).2 (by decide)⟩,
    ⟨by decide, (C4_blob_decode_mod4 [0, 0, 0, 0, 0, 0, 0, 0]).1 (by decide)⟩⟩

/-- C5 (code evaluated at the failing input): `create_user` is not an
error-free idempotent upsert.  In the `KnowledgeBase` schema `name` has no
unique index, so its `ON CONFLICT(name)` statement fails to prepare on every
call.  In the `SqliteStore` variant a first call succeeds, but a second call
with the same name AND the same explicit account id (the repeat-sender case)
conflicts on the `id` primary key — not on the declared target `(name)` —
and errors; only a second call with a different id takes the
update-`updated_at` path and returns the original id. -/
theorem C5_create_user_not_error_free :
    (KnowledgeBase.create_user [] "alice" "discord" "42" "t0" 1 =
      .error .prepareError) ∧
    (SqliteStore.create_user [] "alice" "discord" 42 "t0" =
      .ok (42, [⟨42, "alice", "discord", "t0", "t0"⟩])) ∧
    (SqliteStore.create_user [⟨42, "alice", "discord", "t0", "t0"⟩]
      "alice" "discord" 42 "t1" = .error .constraintViolation) ∧
    (SqliteStore.create_user [⟨42, "alice", "discord", "t0", "t0"⟩]
      "alice" "discord" 43 "t1" =
      .ok (42, [⟨42, "alice", "discord", "t0", "t1"⟩])) := by
  exact ⟨by decide, by decide, by decide, by decide⟩

/-- C6 (code evaluated at the failing input): no `PRAGMA foreign_keys = ON`
is ever issued, so inserting a message whose `channel_id` (999) references no
`channels` row SUCCEEDS and grows the messages table from 0 to 1 row instead
of failing with a constraint violation; the constraint only fires when
enforcement is switched on. -/
theorem C6_missing_channel_insert_succeeds :
    foreignKeysPragmaEnabled = false ∧
    (SqliteStore.create_message foreignKeysPragmaEnabled ⟨[], [], [], 1⟩
      999 7 none "user" "hi" "t0" =
      .ok (1, ⟨[], [], [⟨1, 999, 7, "user", "hi", none, "t0"⟩], 2⟩)) ∧
    (SqliteStore.create_message true ⟨[], [], [], 1⟩ 999 7 none "user" "hi" "t0" =
      .error .constraintViolation) := by
  exact ⟨rfl, by decide, by decide⟩

/-- C7: message insertion is behaviourally a pure insert.  Every successful
`SqliteStore::create_message` call appends exactly one new row (with the
fresh AUTOINCREMENT id) and leaves all existing rows and tables unchanged;
and `KnowledgeBase::create_message` never succeeds at all (its SQL has an
`ON CONFLICT (id) DO UPDATE SET` with an empty assignment list and wrong
columns, so it fails at prepare and rolls back), hence no call through it
ever updates or replaces a messages row. -/
theorem C7_create_message_pure_insert :
    (∀ (fk : Bool) (db : SqliteStore.MessagesDb) (ch acc : ℤ) (rep : Option ℤ)
      (role content now : String) (id : ℤ) (db2 : SqliteStore.MessagesDb),
      SqliteStore.create_message fk db ch acc rep role content now = .ok (id, db2) →
      id = db.nextId ∧
      db2.rows = db.rows ++ [⟨db.nextId, ch, acc, role, content, rep, now⟩] ∧
      db2.channels = db.channels ∧ db2.accounts = db.accounts ∧
      db2.nextId = db.nextId + 1) ∧
    (∀ (emb : List (List ℚ)) (st : SqliteStore.MessagesDb),
      KnowledgeBase.create_message (.ok emb) st = (.error .prepareError, st)) := by
  constructor
  · intro fk db ch acc rep role content now id db2 h
    unfold SqliteStore.create_message at h
    split_ifs at h
    rw [Except.ok.injEq, Prod.mk.injEq] at h
    obtain ⟨h1, h2⟩ := h
    subst h2
    exact ⟨h1.symm, rfl, rfl, rfl, rfl⟩
  · intro emb st
    rfl

/-- C7 witness: a concrete successful insert appends exactly the one row. -/
theorem C7_create_message_pure_insert_witness :
    SqliteStore.create_message false ⟨[], [], [], 1⟩ 1 2 none "user" "hi" "t0" =
      .ok (1, ⟨[], [], [⟨1, 1, 2, "user", "hi", none, "t0"⟩], 2⟩) ∧
    ((1 : ℤ) = (1 : ℤ) ∧
      ([⟨1, 1, 2, "user", "hi", none, "t0"⟩] : List SqliteStore.MessageRow) =
        [] ++ [⟨1, 1, 2, "user", "hi", none, "t0"⟩] ∧
      ([] : List ℤ) = [] ∧ ([] : List ℤ) = [] ∧ (2 : ℤ) = 1 + 1) :=
  ⟨by decide,
    C7_create_message_pure_insert.1 false ⟨[], [], [], 1⟩ 1 2 none "user" "hi" "t0"
      1 ⟨[], [], [⟨1, 1, 2, "user", "hi", none, "t0"⟩], 2⟩ (by decide)⟩

/-- C8 (code evaluated at the failing input): read misses do come back as
empty optionals, but reads of HITS whose timestamp columns hold the
store-written `CURRENT_TIMESTAMP` format do not complete without error:
`SqliteStore::get_user_by_source` panics (chrono's `DateTime<Utc>` parser
requires an RFC 3339 offset, and the code `.unwrap()`s the failure), and
`KnowledgeBase::get_user_by_source` errors reading the TEXT `source_id`
column as the numeric `id`.  `get_message`, which uses the matching
`%Y-%m-%d %H:%M:%S` parser, does read its row back. -/
theorem C8_reads_of_store_written_timestamps :
    (SqliteStore.get_user_by_source [] "discord" = .ok none) ∧
    (SqliteStore.get_user_by_source
      [⟨1, "alice", "discord", "2025-01-01 12:00:00", "2025-01-01 12:00:00"⟩]
      "discord" = .error .panicked) ∧
    (parseRfc3339Utc "2025-01-01 12:00:00" = none) ∧
    (parseRfc3339Utc "2025-01-01T12:00:00Z" = some ⟨2025, 1, 1, 12, 0, 0⟩) ∧
    (KnowledgeBase.get_user_by_source
      [⟨1, "alice", "discord", "42", "2025-01-01 12:00:00", "2025-01-01 12:00:00"⟩]
      "discord" = .error .invalidColumnType) ∧
    (SqliteStore.get_message
      ⟨[1], [1], [⟨1, 1, 1, "user", "hi", none, "2025-01-01 12:00:00"⟩], 2⟩ 1 =
      .ok (some ⟨1, 1, 1, "user", "hi", none, ⟨2025, 1, 1, 12, 0, 0⟩⟩)) ∧
    (SqliteStore.get_message ⟨[], [], [], 1⟩ 1 = .ok none) := by
  exact ⟨by decide, by decide, by decide, by decide, by decide, by decide, by decide⟩


/-- C9: `top_n` on any knn result list (the vector index's
`(rowid, distance)` hits, in its ordering) never errors; a hit whose rowid
names no existing `documents` row is silently omitted (by the
`JOIN documents d ON e.rowid = d.id` and the `get_document` skip), and every
hit whose record exists appears, in the index's order, as
`(distance, doc_id, document)`.  The `doc_id`-uniqueness hypothesis is the
schema's `doc_id TEXT UNIQUE` constraint. -/
theorem C9_top_n_skips_stale_hits (db : SqliteStore.DocumentsDb)
    (knn : List (ℤ × ℚ))
    (huniq : db.documents.Pairwise (fun a b => a.doc_id ≠ b.doc_id)) :
    SqliteStore.top_n db knn = .ok (knn.filterMap (fun p =>
      (db.documents.find? (fun dr => dr.id == p.1)).map
        (fun dr => (p.2, dr.doc_id, dr.document)))) := by
  unfold SqliteStore.top_n
  rw [Except.ok.injEq, List.filterMap_filterMap]
  apply List.filterMap_congr
  intro p _
  cases hfind : db.documents.find? (fun dr => dr.id == p.1) with
  | none => rfl
  | some dr =>
    have hmem := List.mem_of_find?_eq_some hfind
    have hdoc : SqliteStore.get_document db dr.doc_id = some dr.document := by
      unfold SqliteStore.get_document
      rw [find?_doc_id_self db.documents huniq dr hmem]
      rfl
    simp [hdoc]

/-- C9 witness: a two-hit knn list where rowid 99 is stale (no documents row)
and rowid 1 exists; the stale hit is dropped, no error is raised, and the
live hit keeps its position. -/
theorem C9_top_n_skips_stale_hits_witness :
    ((⟨[⟨1, "a", "da"⟩], [], 2⟩ : SqliteStore.DocumentsDb).documents.Pairwise
      (fun a b => a.doc_id ≠ b.doc_id)) ∧
    SqliteStore.top_n ⟨[⟨1, "a", "da"⟩], [], 2⟩ [(1, 1), (99, 2)] =
      .ok ([(1, 1), (99, 2)].filterMap (fun p =>
        ((⟨[⟨1, "a", "da"⟩], [], 2⟩ : SqliteStore.DocumentsDb).documents.find?
          (fun dr => dr.id == p.1)).map
          (fun dr => (p.2, dr.doc_id, dr.document)))) :=
  ⟨by decide, C9_top_n_skips_stale_hits ⟨[⟨1, "a", "da"⟩], [], 2⟩
    [(1, 1), (99, 2)] (by decide)⟩

/-- C10: when every stored `created_at` is in the store-written format,
`SqliteStore::get_recent_messages db cid lim` succeeds with a message list
that (a) has at most `lim` entries, (b) contains only messages of channel
`cid`, and (c) is the field-for-field read-back of a selection of stored
rows that is sorted by the `created_at` column descending (newest first
under the store's TEXT comparison).  The `KnowledgeBase` variant of
`get_recent_messages` instead fails on every call: its SELECT names columns
(`source`, `source_id`, `channel_type`) that the messages table does not
have. -/
theorem C10_get_recent_messages_shape (db : SqliteStore.MessagesDb)
    (cid : ℤ) (lim : ℕ)
    (hts : ∀ r ∈ db.rows, (parseSqliteTimestamp r.created_at).isSome) :
    KnowledgeBase.get_recent_messages db cid lim = .error .prepareError ∧
    ∃ msgs, SqliteStore.get_recent_messages db cid lim = .ok msgs ∧
      msgs.length ≤ lim ∧
      (∀ m ∈ msgs, m.channel_id = cid) ∧
      List.Forall₂ (fun (r : SqliteStore.MessageRow) (m : SqliteStore.Message) =>
          m.id = r.id ∧ m.channel_id = r.channel_id ∧ m.account_id = r.account_id ∧
          m.role = r.role ∧ m.content = r.content ∧ m.reply_to_id = r.reply_to_id ∧
          parseSqliteTimestamp r.created_at = some m.created_at)
        (((db.rows.filter (fun r => r.channel_id == cid)).insertionSort
          SqliteStore.createdAtDesc).take lim) msgs ∧
      List.Pairwise SqliteStore.createdAtDesc
        (((db.rows.filter (fun r => r.channel_id == cid)).insertionSort
          SqliteStore.createdAtDesc).take lim) := by
  constructor
  · have hneg : ¬ ((KnowledgeBase.recentMessagesSelectColumns.all
        (fun c => KnowledgeBase.messagesTableColumns.contains c)) = true) := by decide
    unfold KnowledgeBase.get_recent_messages
    rw [if_neg hneg]
  · have hsel_rows : ∀ r ∈ ((db.rows.filter (fun r => r.channel_id == cid)).insertionSort
        SqliteStore.createdAtDesc).take lim, r ∈ db.rows ∧ r.channel_id = cid := by
      intro r hr
      have h1 := List.mem_of_mem_take hr
      have h2 := (List.mem_insertionSort SqliteStore.createdAtDesc).mp h1
      refine ⟨List.mem_of_mem_filter h2, ?_⟩
      have := List.of_mem_filter h2
      simpa using this
    obtain ⟨ms, hms, hf⟩ := rowsToMessages_of_parses
      (((db.rows.filter (fun r => r.channel_id == cid)).insertionSort
        SqliteStore.createdAtDesc).take lim)
      (fun r hr => hts r (hsel_rows r hr).1)
    refine ⟨ms, ?_, ?_, ?_, hf, ?_⟩
    · unfold SqliteStore.get_recent_messages
      rw [hms]
    · have hlen := List.Forall₂.length_eq hf
      rw [← hlen, List.length_take]
      exact min_le_left _ _
    · intro m hm
      obtain ⟨r, hr, hrel⟩ := forall₂_mem_right hf m hm
      rw [hrel.2.1]
      exact (hsel_rows r hr).2
    · haveI : IsTotal SqliteStore.MessageRow SqliteStore.createdAtDesc :=
        ⟨fun a b => (lexLe_total b.created_at.toList a.created_at.toList).imp id id⟩
      haveI : IsTrans SqliteStore.MessageRow SqliteStore.createdAtDesc :=
        ⟨fun _ _ _ h1 h2 => lexLe_trans _ _ _ h2 h1⟩
      exact List.Pairwise.sublist (List.take_sublist _ _)
        (List.sorted_insertionSort SqliteStore.createdAtDesc
          (db.rows.filter (fun r => r.channel_id == cid)))

/-- C10 witness: a concrete store with three messages, two of them in
channel 1; with limit 1 the single returned message is the newer channel-1
row. -/
theorem C10_get_recent_messages_shape_witness :
    (∀ r ∈ (⟨[1], [1],
      [⟨1, 1, 1, "user", "a", none, "2025-01-02 00:00:00"⟩,
       ⟨2, 1, 1, "user", "b", none, "2025-01-03 00:00:00"⟩,
       ⟨3, 2, 1, "user", "c", none, "2025-01-04 00:00:00"⟩], 4⟩ :
        SqliteStore.MessagesDb).rows,
      (parseSqliteTimestamp r.created_at).isSome) ∧
    (KnowledgeBase.get_recent_messages (⟨[1], [1],
      [⟨1, 1, 1, "user", "a", none, "2025-01-02 00:00:00"⟩,
       ⟨2, 1, 1, "user", "b", none, "2025-01-03 00:00:00"⟩,
       ⟨3, 2, 1, "user", "c", none, "2025-01-04 00:00:00"⟩], 4⟩ :
        SqliteStore.MessagesDb) 1 1 = .error .prepareError ∧
      ∃ msgs, SqliteStore.get_recent_messages (⟨[1], [1],
        [⟨1, 1, 1, "user", "a", none, "2025-01-02 00:00:00"⟩,
         ⟨2, 1, 1, "user", "b", none, "2025-01-03 00:00:00"⟩,
         ⟨3, 2, 1, "user", "c", none, "2025-01-04 00:00:00"⟩], 4⟩ :
          SqliteStore.MessagesDb) 1 1 = .ok msgs ∧
        msgs.length ≤ 1 ∧
        (∀ m ∈ msgs, m.channel_id = 1) ∧
        List.Forall₂ (fun (r : SqliteStore.MessageRow) (m : SqliteStore.Message) =>
            m.id = r.id ∧ m.channel_id = r.channel_id ∧ m.account_id = r.account_id ∧
            m.role = r.role ∧ m.content = r.content ∧ m.reply_to_id = r.reply_to_id ∧
            parseSqliteTimestamp r.created_at = some m.created_at)
          ((((⟨[1], [1],
            [⟨1, 1, 1, "user", "a", none, "2025-01-02 00:00:00"⟩,
             ⟨2, 1, 1, "user", "b", none, "2025-01-03 00:00:00"⟩,
             ⟨3, 2, 1, "user", "c", none, "2025-01-04 00:00:00"⟩], 4⟩ :
              SqliteStore.MessagesDb).rows.filter
            (fun r => r.channel_id == 1)).insertionSort
            SqliteStore.createdAtDesc).take 1) msgs ∧
        List.Pairwise SqliteStore.createdAtDesc
          ((((⟨[1], [1],
            [⟨1, 1, 1, "user", "a", none, "2025-01-02 00:00:00"⟩,
             ⟨2, 1, 1, "user", "b", none, "2025-01-03 00:00:00"⟩,
             ⟨3, 2, 1, "user", "c", none, "2025-01-04 00:00:00"⟩], 4⟩ :
              SqliteStore.MessagesDb).rows.filter
            (fun r => r.channel_id == 1)).insertionSort
            SqliteStore.createdAtDesc).take 1)) :=
  ⟨by decide, C10_get_recent_messages_shape _ 1 1 (by decide)⟩

end Asuka
